import Mathlib

/-!
Verification development for the target-postgres repository core:
the performance timer and adaptive batch-size controller
(`target_postgres/perftimer.py`), the JSON-Schema-to-SQL type mapper
and the record conformer / bulk-insert sink (`target_postgres/sinks.py`).

The Python code is shallowly embedded: floats become exact rationals
(`ℚ`), Python `None` becomes `Option.none`, a raised exception becomes
an `Option.none` / explicit error result, and in-place mutation becomes
explicit state passing.  Host collaborators (wall clock, database
engine, the host's numeric `str()` rendering) are inputs.
-/

namespace TargetPostgres

/-! ## `perftimer.py` — `PerfTimer`

`_start_time`, `_stop_time` and `_lap_time` are `float`-or-`None`
attributes, modelled as `Option ℚ`.  `time.perf_counter()` is an
external clock, so `start`/`stop` take the current reading `now` as an
argument.  A Python `raise` leaves the object untouched and hands an
exception to the caller: each method returns the resulting state
together with `Option String`, `some msg` being a raised
`PerfTimerError` carrying `msg`. -/

structure PerfTimer where
  startTime : Option ℚ := none
  stopTime : Option ℚ := none
  lapTime : Option ℚ := none
deriving DecidableEq

/-- `PerfTimer.start`: raises when `_start_time is not None`, otherwise
records the clock reading in `_start_time`. -/
def PerfTimer.start (s : PerfTimer) (now : ℚ) : PerfTimer × Option String :=
  if s.startTime.isSome then
    (s, some "Timer is running. Use .stop() to stop it")
  else
    ({ s with startTime := some now }, none)

/-- `PerfTimer.stop`: raises when `_start_time is None`, otherwise
stores the elapsed time in `_lap_time` and resets `_start_time`. -/
def PerfTimer.stop (s : PerfTimer) (now : ℚ) : PerfTimer × Option String :=
  match s.startTime with
  | none => (s, some "Timer is not running. Use .start() to start it")
  | some st =>
      ({ s with startTime := none, stopTime := some now,
                lapTime := some (now - st) }, none)

/-! ## `perftimer.py` — `BatchPerfTimer` -/

structure BatchPerfTimer extends PerfTimer where
  sinkMaxSize : ℤ
  maxPerfCounter : ℚ := 1
deriving DecidableEq

/-- `BatchPerfTimer.SINK_MAX_SIZE_CELING` — "The max size a bulk insert
can be". -/
def SINK_MAX_SIZE_CELING : ℤ := 100000

/-- `perf_diff_allowed_min = -1.0*(self.max_perf_counter * 0.33)`. -/
def BatchPerfTimer.perf_diff_allowed_min (s : BatchPerfTimer) : ℚ :=
  -1 * (s.maxPerfCounter * (33 / 100))

/-- `perf_diff_allowed_max = self.max_perf_counter * 0.75`. -/
def BatchPerfTimer.perf_diff_allowed_max (s : BatchPerfTimer) : ℚ :=
  s.maxPerfCounter * (75 / 100)

/-- `perf_diff`: the body runs under `if self._lap_time:`, a Python
truthiness test, so both `None` and a `0.0` lap fall through and the
property implicitly returns `None`. -/
def BatchPerfTimer.perf_diff (s : BatchPerfTimer) : Option ℚ :=
  match s.lapTime with
  | some l => if l ≠ 0 then some (s.maxPerfCounter - l) else none
  | none => none

/-- `counter_based_max_size`: computes a correction, adds it to
`_sink_max_size` and returns the new size (paired here with the updated
state).  When `perf_diff` is `None` the very first comparison
`self.perf_diff < self.perf_diff_allowed_min` is a `None < float`
comparison, a `TypeError` in Python 3: modelled as `none`.

The two correction blocks are translated statement by statement.  In
the source both blocks open with a plain `if` that is followed by a
second `if` (not `elif`), so the first assignment (`-5000`
respectively `10000`) can be overwritten by the chain that follows
it. -/
def BatchPerfTimer.counter_based_max_size (s : BatchPerfTimer) :
    Option (ℤ × BatchPerfTimer) :=
  match s.perf_diff with
  | none => none
  | some pd =>
    let correction0 : ℤ := 0
    let correction1 : ℤ :=
      if pd < s.perf_diff_allowed_min then
        let c := if s.sinkMaxSize ≥ 15000 then -5000 else correction0
        if s.sinkMaxSize ≥ 10000 then -1000
        else if s.sinkMaxSize ≥ 1000 then -100
        else if s.sinkMaxSize > 10 then 10
        else c
      else correction0
    let correction2 : ℤ :=
      if pd ≥ s.perf_diff_allowed_max ∧ s.sinkMaxSize < SINK_MAX_SIZE_CELING then
        let c := if s.sinkMaxSize ≥ 10000 then 10000 else correction1
        if s.sinkMaxSize ≥ 1000 then 1000
        else if s.sinkMaxSize ≥ 100 then 100
        else if s.sinkMaxSize ≥ 10 then 10
        else c
      else correction1
    let newSize := s.sinkMaxSize + correction2
    some (newSize, { s with sinkMaxSize := newSize })

/-- The net shrink correction the source's first block produces: the
`-5000` assigned at `≥ 15000` is always overwritten by the `-1000` of
the `if`/`elif` chain right after it. -/
def shrinkCorrection (size : ℤ) : ℤ :=
  if size ≥ 10000 then -1000
  else if size ≥ 1000 then -100
  else if size > 10 then 10
  else 0

/-- The net grow correction the source's second block produces: the
`10000` assigned at `≥ 10000` is always overwritten by the `1000` of
the `if`/`elif` chain right after it. -/
def growCorrection (size : ℤ) : ℤ :=
  if size ≥ 1000 then 1000
  else if size ≥ 100 then 100
  else if size ≥ 10 then 10
  else 0

/-- Evaluation of `counter_based_max_size` when the grow branch fires:
whatever the shrink block left in `correction` is overwritten (or, at
sizes below 10 where no grow arm assigns, both blocks leave 0). -/
theorem counter_eval_grow (s : BatchPerfTimer) (d : ℚ)
    (hd : s.perf_diff = some d) (hmax : d ≥ s.perf_diff_allowed_max)
    (hceil : s.sinkMaxSize < SINK_MAX_SIZE_CELING) :
    s.counter_based_max_size =
      some (s.sinkMaxSize + growCorrection s.sinkMaxSize,
            { s with sinkMaxSize := s.sinkMaxSize + growCorrection s.sinkMaxSize }) := by
  unfold BatchPerfTimer.counter_based_max_size
  simp only [hd]
  rw [if_pos ⟨hmax, hceil⟩]
  by_cases h1 : d < s.perf_diff_allowed_min
  · rw [if_pos h1]
    simp only [growCorrection, Option.some.injEq, Prod.mk.injEq]
    constructor
    · split_ifs <;> omega
    · congr 1
      split_ifs <;> omega
  · rw [if_neg h1]
    simp only [growCorrection, Option.some.injEq, Prod.mk.injEq]
    constructor
    · split_ifs <;> omega
    · congr 1
      split_ifs <;> omega

/-- Evaluation of `counter_based_max_size` when the shrink branch fires
and the grow branch does not. -/
theorem counter_eval_shrink (s : BatchPerfTimer) (d : ℚ)
    (hd : s.perf_diff = some d) (hmin : d < s.perf_diff_allowed_min)
    (hng : ¬(d ≥ s.perf_diff_allowed_max ∧ s.sinkMaxSize < SINK_MAX_SIZE_CELING)) :
    s.counter_based_max_size =
      some (s.sinkMaxSize + shrinkCorrection s.sinkMaxSize,
            { s with sinkMaxSize := s.sinkMaxSize + shrinkCorrection s.sinkMaxSize }) := by
  unfold BatchPerfTimer.counter_based_max_size
  simp only [hd]
  rw [if_pos hmin, if_neg hng]
  simp only [shrinkCorrection, Option.some.injEq, Prod.mk.injEq]
  constructor
  · split_ifs <;> omega
  · congr 1
    split_ifs <;> omega

/-- C1 (corrected): with a completed nonzero lap, `perfDiff` at or above
the surplus bound and the threshold below the ceiling, the grow block's
`+10000` assignment for thresholds ≥ 10000 is immediately overwritten
by the `+1000` arm of the `if`/`elif` chain that follows it, so the
threshold grows by exactly +1000 whenever it is ≥ 1000, else +100 if
≥ 100, else +10 if ≥ 10; in particular threshold 5000 with
`targetSeconds = 1.0` and a 0.1-second lap yields 6000, not 5100. -/
theorem claim_C1_threshold_growth (s : BatchPerfTimer) (d : ℚ)
    (hd : s.perf_diff = some d) (hmax : d ≥ s.perf_diff_allowed_max)
    (hceil : s.sinkMaxSize < SINK_MAX_SIZE_CELING) :
    (s.counter_based_max_size).map Prod.fst =
      some (s.sinkMaxSize +
        (if s.sinkMaxSize ≥ 1000 then 1000
         else if s.sinkMaxSize ≥ 100 then 100
         else if s.sinkMaxSize ≥ 10 then 10 else 0)) := by
  rw [counter_eval_grow s d hd hmax hceil]; rfl

/-- C1, refuted as stated: at threshold 5000, `targetSeconds = 1.0` and
a lap of 0.1 seconds the controller returns 6000 (the `+1000` arm), not
the claimed 5100; and at threshold 10000 it returns 11000, not the
claimed 10000 + 10000 = 20000. -/
theorem claim_C1_counterexample :
    (BatchPerfTimer.counter_based_max_size ⟨⟨none, none, some (1/10)⟩, 5000, 1⟩).map Prod.fst
        = some 6000 ∧ (6000 : ℤ) ≠ 5100 ∧
      (BatchPerfTimer.counter_based_max_size ⟨⟨none, none, some (1/10)⟩, 10000, 1⟩).map Prod.fst
        = some 11000 ∧ (11000 : ℤ) ≠ 20000 := by
  refine ⟨?_, by decide, ?_, by decide⟩
  · rw [counter_eval_grow _ (9/10) (by norm_num [BatchPerfTimer.perf_diff])
      (by norm_num [BatchPerfTimer.perf_diff_allowed_max])
      (by norm_num [SINK_MAX_SIZE_CELING])]
    decide
  · rw [counter_eval_grow _ (9/10) (by norm_num [BatchPerfTimer.perf_diff])
      (by norm_num [BatchPerfTimer.perf_diff_allowed_max])
      (by norm_num [SINK_MAX_SIZE_CELING])]
    decide

/-- Witness for C1's amended theorem at threshold 5000, target 1.0,
lap 0.1: the next threshold is 6000. -/
theorem claim_C1_witness :
    (BatchPerfTimer.counter_based_max_size ⟨⟨none, none, some (1/10)⟩, 5000, 1⟩).map Prod.fst
      = some 6000 := by
  rw [claim_C1_threshold_growth ⟨⟨none, none, some (1/10)⟩, 5000, 1⟩ (9/10)
    (by norm_num [BatchPerfTimer.perf_diff])
    (by norm_num [BatchPerfTimer.perf_diff_allowed_max])
    (by norm_num [SINK_MAX_SIZE_CELING])]
  decide

/-- C2 (corrected): with a completed nonzero lap, a nonnegative target
and `perfDiff` below the shortfall bound, the shrink block's `-5000`
assignment for thresholds ≥ 15000 is immediately overwritten by the
`-1000` arm of the `if`/`elif` chain that follows it, so the threshold
shrinks by exactly −1000 whenever it is ≥ 10000 (including ≥ 15000),
else −100 if ≥ 1000, else grows by +10 if > 10, and thresholds ≤ 10
are left unchanged. -/
theorem claim_C2_threshold_shrink (s : BatchPerfTimer) (d : ℚ)
    (hd : s.perf_diff = some d) (hmin : d < s.perf_diff_allowed_min)
    (ht : 0 ≤ s.maxPerfCounter) :
    (s.counter_based_max_size).map Prod.fst =
      some (s.sinkMaxSize +
        (if s.sinkMaxSize ≥ 10000 then -1000
         else if s.sinkMaxSize ≥ 1000 then -100
         else if s.sinkMaxSize > 10 then 10 else 0)) := by
  have hng : ¬(d ≥ s.perf_diff_allowed_max ∧ s.sinkMaxSize < SINK_MAX_SIZE_CELING) := by
    rintro ⟨hge, -⟩
    have hmm : s.perf_diff_allowed_min ≤ s.perf_diff_allowed_max := by
      unfold BatchPerfTimer.perf_diff_allowed_min BatchPerfTimer.perf_diff_allowed_max
      linarith
    exact absurd hge (not_le.mpr (lt_of_lt_of_le hmin hmm))
  rw [counter_eval_shrink s d hd hmin hng]; rfl

/-- C2, refuted as stated: at threshold 15000, `targetSeconds = 1.0`
and a lap of 2 seconds the controller returns 14000 (the overwritten
`-1000` arm), not the claimed 15000 − 5000 = 10000. -/
theorem claim_C2_counterexample :
    (BatchPerfTimer.counter_based_max_size ⟨⟨none, none, some 2⟩, 15000, 1⟩).map Prod.fst
      = some 14000 ∧ (14000 : ℤ) ≠ 10000 := by
  refine ⟨?_, by decide⟩
  rw [counter_eval_shrink _ (-1) (by norm_num [BatchPerfTimer.perf_diff])
    (by norm_num [BatchPerfTimer.perf_diff_allowed_min])
    (by norm_num [BatchPerfTimer.perf_diff_allowed_max])]
  decide

/-- Witness for C2's amended theorem at threshold 15000, target 1.0,
lap 2.0: the next threshold is 14000. -/
theorem claim_C2_witness :
    (BatchPerfTimer.counter_based_max_size ⟨⟨none, none, some 2⟩, 15000, 1⟩).map Prod.fst
      = some 14000 := by
  rw [claim_C2_threshold_shrink ⟨⟨none, none, some 2⟩, 15000, 1⟩ (-1)
    (by norm_num [BatchPerfTimer.perf_diff])
    (by norm_num [BatchPerfTimer.perf_diff_allowed_min])
    (by norm_num)]
  decide

/-- C8 (confirmed): `start` raises `PerfTimerError` exactly when a lap
is already in progress (`_start_time` set) and leaves the state
unchanged then; `stop` raises exactly when no lap is in progress and
leaves the state unchanged then; two `start`s without an intervening
`stop` fail on the second `start`. -/
theorem claim_C8_timer_alternation (s : PerfTimer) (now now2 : ℚ) :
    ((s.start now).2.isSome ↔ s.startTime.isSome) ∧
    ((s.start now).2.isSome → (s.start now).1 = s) ∧
    ((s.stop now).2.isSome ↔ s.startTime = none) ∧
    ((s.stop now).2.isSome → (s.stop now).1 = s) ∧
    (s.startTime = none → (((s.start now).1).start now2).2.isSome) := by
  unfold PerfTimer.start PerfTimer.stop
  rcases h : s.startTime with _ | st <;> simp [h]

/-- C9 (confirmed): the ceiling only gates entry into the grow branch;
for thresholds 99001..99999 an early-finishing lap pushes the threshold
to `t + 1000`, strictly above the 100000 ceiling. -/
theorem claim_C9_ceiling_overshoot (s : BatchPerfTimer) (d : ℚ)
    (hd : s.perf_diff = some d) (hmax : d ≥ s.perf_diff_allowed_max)
    (hlo : 99001 ≤ s.sinkMaxSize) (hhi : s.sinkMaxSize ≤ 99999) :
    (s.counter_based_max_size).map Prod.fst = some (s.sinkMaxSize + 1000) ∧
    SINK_MAX_SIZE_CELING < s.sinkMaxSize + 1000 := by
  have hceil : s.sinkMaxSize < SINK_MAX_SIZE_CELING := by
    unfold SINK_MAX_SIZE_CELING; omega
  refine ⟨?_, by unfold SINK_MAX_SIZE_CELING; omega⟩
  rw [counter_eval_grow s d hd hmax hceil]
  show some (s.sinkMaxSize + growCorrection s.sinkMaxSize) = _
  unfold growCorrection
  rw [if_pos (show s.sinkMaxSize ≥ 1000 by omega)]

/-- Witness for C9 at threshold 99500, target 1.0, lap 0.1: the next
threshold is 100500, above the ceiling. -/
theorem claim_C9_witness :
    (BatchPerfTimer.counter_based_max_size ⟨⟨none, none, some (1/10)⟩, 99500, 1⟩).map Prod.fst
      = some 100500 ∧ SINK_MAX_SIZE_CELING < (100500 : ℤ) := by
  have h := claim_C9_ceiling_overshoot ⟨⟨none, none, some (1/10)⟩, 99500, 1⟩ (9/10)
    (by norm_num [BatchPerfTimer.perf_diff])
    (by norm_num [BatchPerfTimer.perf_diff_allowed_max])
    (by norm_num) (by norm_num)
  exact h

/-- C10 (confirmed): with no completed lap, or a lap of exactly 0
seconds, `perf_diff` is `None` (the `if self._lap_time:` truthiness
test fails), so `counter_based_max_size` hits a `None < float`
comparison and fails instead of returning a threshold; a 0-second lap
behaves exactly like an absent one. -/
theorem claim_C10_lap_precondition (s : BatchPerfTimer)
    (h : s.lapTime = none ∨ s.lapTime = some 0) :
    s.perf_diff = none ∧ s.counter_based_max_size = none ∧
    BatchPerfTimer.counter_based_max_size { s with lapTime := some 0 } =
      BatchPerfTimer.counter_based_max_size { s with lapTime := none } := by
  have hpd : s.perf_diff = none := by
    unfold BatchPerfTimer.perf_diff
    rcases h with h | h <;> simp [h]
  refine ⟨hpd, ?_, ?_⟩
  · unfold BatchPerfTimer.counter_based_max_size
    rw [hpd]
  · unfold BatchPerfTimer.counter_based_max_size BatchPerfTimer.perf_diff
    simp

/-- Witness for C10 at a timer whose last lap measured exactly 0
seconds. -/
theorem claim_C10_witness :
    BatchPerfTimer.perf_diff ⟨⟨none, none, some 0⟩, 5000, 1⟩ = none ∧
    BatchPerfTimer.counter_based_max_size ⟨⟨none, none, some 0⟩, 5000, 1⟩ = none ∧
    BatchPerfTimer.counter_based_max_size ⟨⟨none, none, some 0⟩, 5000, 1⟩ =
      BatchPerfTimer.counter_based_max_size ⟨⟨none, none, none⟩, 5000, 1⟩ :=
  claim_C10_lap_precondition ⟨⟨none, none, some 0⟩, 5000, 1⟩ (Or.inr rfl)

/-! ## `sinks.py` — numeric constants and the type mapper

JSON-schema bound values reach `hd_to_sql_type` as host numbers (int,
float or `Decimal`).  A host number is modelled as its exact value
(`val : ℚ`, used by the `==` fingerprint comparisons) together with the
host's `str()` rendering (`render : String`, used by the precision and
scale recovery).  The rendering of an int is canonical and is pinned
down in the theorems; float/Decimal renderings are host formatting and
stay an input. -/

structure PyNum where
  val : ℚ
  render : String
deriving DecidableEq

/-- One property of a JSON Schema `properties` map, as
`hd_to_sql_type` and `preprocess_record` read it. -/
structure SchemaField where
  type : List String
  format : Option String := none
  contentMediaType : Option String := none
  contentEncoding : Option String := none
  maxLength : Option ℤ := none
  minimum : Option PyNum := none
  maximum : Option PyNum := none
deriving DecidableEq

/-- The SQLAlchemy/postgresql column types `hd_to_sql_type` can
return.  `DEFAULT` stands for the fall-through to the external
`SQLConnector.to_sql_type`; `HOSTERROR` for a host exception escaping
(`int()` applied to a malformed slice). -/
inductive ColumnType where
  | DATE
  | TIME
  | TIMESTAMP
  | UUID
  | TEXT
  | BYTEA (length : Option ℤ)
  | VARCHAR (length : Option ℤ)
  | BOOLEAN
  | BIGINT
  | INTEGER
  | SMALLINT
  | MONEY
  | FLOAT
  | REAL
  | NUMERIC (precision : ℤ) (scale : ℤ)
  | DEFAULT
  | HOSTERROR
deriving DecidableEq

def MSSQL_BIGINT_MIN : ℚ := -9223372036854775808
def MSSQL_BIGINT_MAX : ℚ := 9223372036854775807
def MSSQL_INT_MIN : ℚ := -2147483648
def MSSQL_INT_MAX : ℚ := 2147483647
def MSSQL_SMALLINT_MIN : ℚ := -32768
def MSSQL_SMALLINT_MAX : ℚ := 32767
def MSSQL_TINYINT_MIN : ℚ := 0
def MSSQL_TINYINT_MAX : ℚ := 255
def MSSQL_MONEY_MIN : ℚ := -9223372036854776 / 10
def MSSQL_MONEY_MAX : ℚ := 9223372036854776 / 10
def MSSQL_SMALLMONEY_MIN : ℚ := -2147483648 / 10000
def MSSQL_SMALLMONEY_MAX : ℚ := 2147483647 / 10000
def MSSQL_FLOAT_MIN : ℚ := -179 * 10 ^ 306
def MSSQL_FLOAT_MAX : ℚ := 179 * 10 ^ 306
def MSSQL_REAL_MIN : ℚ := -34 * 10 ^ 37
def MSSQL_REAL_MAX : ℚ := 34 * 10 ^ 37

/-- `bound == CONST`: Python `==` against a number is `False` for an
absent (`None`) bound and numeric equality otherwise. -/
def boundEq (m : Option PyNum) (c : ℚ) : Bool :=
  match m with
  | some x => decide (x.val = c)
  | none => false

/-- Python `str(x)` where `x` may be `None`. -/
def pyStr (m : Option PyNum) : String :=
  match m with
  | some x => x.render
  | none => "None"

/-- `s.count(c)`. -/
def pyCount (s : String) (c : Char) : ℕ :=
  (s.data.filter (fun a => a = c)).length

/-- ASCII lower-casing of one character, as `str.lower()` acts on the
characters relevant here. -/
def asciiLower (c : Char) : Char :=
  if 'A' ≤ c ∧ c ≤ 'Z' then Char.ofNat (c.toNat + 32) else c

/-- `s.lower()`. -/
def pyLower (s : String) : String :=
  ⟨s.data.map asciiLower⟩

/-- Auxiliary for `pyFind`: index of the first occurrence, or -1. -/
def firstIdx : List Char → Char → ℤ
  | [], _ => -1
  | a :: rest, c =>
      if a = c then 0
      else
        let r := firstIdx rest c
        if r = -1 then -1 else r + 1

/-- `s.find(c)`. -/
def pyFind (s : String) (c : Char) : ℤ :=
  firstIdx s.data c

/-- Auxiliary for `pyRfind`: index of the last occurrence, or -1. -/
def lastIdx : List Char → Char → ℤ
  | [], _ => -1
  | a :: rest, c =>
      let r := lastIdx rest c
      if r ≠ -1 then r + 1
      else if a = c then 0 else -1

/-- `s.rfind(c)`. -/
def pyRfind (s : String) (c : Char) : ℤ :=
  lastIdx s.data c

/-- `pat in s` for strings. -/
def listHasSub (pat : List Char) : List Char → Bool
  | [] => pat.isEmpty
  | c :: rest => List.isPrefixOf pat (c :: rest) || listHasSub pat rest

def pyHasSub (pat s : String) : Bool :=
  listHasSub pat.data s.data

/-- Digits of a decimal numeral, for `int()`. -/
def decDigits? (l : List Char) : Option ℕ :=
  if l = [] then none
  else if l.all (fun c => '0' ≤ c ∧ c ≤ '9') then
    some (l.foldl (fun acc c => acc * 10 + (c.toNat - 48)) 0)
  else none

/-- Python `int(s)` on an already-stripped slice: optional sign then
decimal digits, anything else raises `ValueError` (`none`). -/
def pyInt? (l : List Char) : Option ℤ :=
  match l with
  | '+' :: rest => (decDigits? rest).map Int.ofNat
  | '-' :: rest => (decDigits? rest).map (fun n => -(n : ℤ))
  | rest => (decDigits? rest).map Int.ofNat

/-- Python truthiness of the `maxLength` lookup: `None` and `0` are
falsy. -/
def lengthTruthy : Option ℤ → Bool
  | none => false
  | some n => n ≠ 0

/-- The tail of the source's `number` branch — the `(precision, scale)`
recovery from the string rendering of `maximum` once every fingerprint
comparison has failed — named so the theorems can address it.
`str.count('9')`, `str.rfind('.')`, `int(str[rfind('+'):])`,
`str.find('.') + 1` and `str.lower().find('e')` are translated
one for one. -/
def numericRecovery (maxStr : String) : ColumnType :=
  if ¬ pyHasSub "e+" (pyLower maxStr) then
    let precision : ℤ := pyCount maxStr '9'
    .NUMERIC precision (precision - pyRfind maxStr '.')
  else
    let precisionStart := pyRfind maxStr '+'
    match pyInt? (maxStr.data.drop precisionStart.toNat) with
    | none => .HOSTERROR
    | some precision =>
        let scaleStart := pyFind maxStr '.' + 1
        let scaleEnd := pyFind (pyLower maxStr) 'e'
        .NUMERIC precision (scaleEnd - scaleStart)

/-- `PostgresConnector.hd_to_sql_type`, translated branch for branch
from the source.  The `string`/`boolean`/`integer`/`number` membership
tests mirror `"..." in jsonschema_type.get("type")`. -/
def hd_to_sql_type (f : SchemaField) : ColumnType :=
  if "string" ∈ f.type then
    if f.format = some "date" then .DATE
    else if f.format = some "time" then .TIME
    else if f.format = some "date-time" then .TIMESTAMP
    else if f.format = some "uuid" then .UUID
    else if f.contentMediaType = some "application/xml" then .TEXT
    else if f.contentEncoding = some "base64" then
      if lengthTruthy f.maxLength then .BYTEA f.maxLength else .BYTEA none
    else if lengthTruthy f.maxLength then .VARCHAR f.maxLength
    else .VARCHAR none
  else if "boolean" ∈ f.type then .BOOLEAN
  else if "integer" ∈ f.type then
    if boundEq f.minimum MSSQL_BIGINT_MIN && boundEq f.maximum MSSQL_BIGINT_MAX then .BIGINT
    else if boundEq f.minimum MSSQL_INT_MIN && boundEq f.maximum MSSQL_INT_MAX then .INTEGER
    else if boundEq f.minimum MSSQL_SMALLINT_MIN && boundEq f.maximum MSSQL_SMALLINT_MAX then
      .SMALLINT
    else if boundEq f.minimum MSSQL_TINYINT_MIN && boundEq f.maximum MSSQL_TINYINT_MAX then
      .SMALLINT
    else .NUMERIC (pyCount (pyStr f.maximum) '9') 0
  else if "number" ∈ f.type then
    if boundEq f.minimum MSSQL_MONEY_MIN && boundEq f.maximum MSSQL_MONEY_MAX then .MONEY
    else if boundEq f.minimum MSSQL_SMALLMONEY_MIN && boundEq f.maximum MSSQL_SMALLMONEY_MAX then
      .MONEY
    else if boundEq f.minimum MSSQL_FLOAT_MIN && boundEq f.maximum MSSQL_FLOAT_MAX then .FLOAT
    else if boundEq f.minimum MSSQL_REAL_MIN && boundEq f.maximum MSSQL_REAL_MAX then .REAL
    else numericRecovery (pyStr f.maximum)
  else .DEFAULT

/-- The four fixed-width integer fingerprints of the `integer` branch. -/
def intFingerprint (f : SchemaField) : Bool :=
  (boundEq f.minimum MSSQL_BIGINT_MIN && boundEq f.maximum MSSQL_BIGINT_MAX) ||
  (boundEq f.minimum MSSQL_INT_MIN && boundEq f.maximum MSSQL_INT_MAX) ||
  (boundEq f.minimum MSSQL_SMALLINT_MIN && boundEq f.maximum MSSQL_SMALLINT_MAX) ||
  (boundEq f.minimum MSSQL_TINYINT_MIN && boundEq f.maximum MSSQL_TINYINT_MAX)

/-- The four fixed fingerprints of the `number` branch. -/
def numFingerprint (f : SchemaField) : Bool :=
  (boundEq f.minimum MSSQL_MONEY_MIN && boundEq f.maximum MSSQL_MONEY_MAX) ||
  (boundEq f.minimum MSSQL_SMALLMONEY_MIN && boundEq f.maximum MSSQL_SMALLMONEY_MAX) ||
  (boundEq f.minimum MSSQL_FLOAT_MIN && boundEq f.maximum MSSQL_FLOAT_MAX) ||
  (boundEq f.minimum MSSQL_REAL_MIN && boundEq f.maximum MSSQL_REAL_MAX)

theorem boundEq_true_iff (m : Option PyNum) (c : ℚ) :
    boundEq m c = true ↔ ∃ x, m = some x ∧ x.val = c := by
  cases m <;> simp [boundEq]

theorem boundEq_of_ne (m : Option PyNum) (c c' : ℚ)
    (h : boundEq m c = true) (hcc : c' ≠ c) : boundEq m c' = false := by
  rcases (boundEq_true_iff m c).1 h with ⟨x, hm, hv⟩
  subst hm
  simp only [boundEq, decide_eq_false_iff_not]
  exact fun h' => hcc (h'.symm.trans hv)

/-- C3 (confirmed): an integer-typed field whose `(minimum, maximum)`
pair exactly equals the 64-bit, 32-bit, 16-bit, or `[0, 255]`
fingerprint maps to BIGINT, INTEGER, SMALLINT, SMALLINT respectively;
any other integer-typed field maps to NUMERIC with scale 0 and
precision the number of `9` characters in the decimal rendering of
`maximum`. -/
theorem claim_C3_integer_mapping (f : SchemaField)
    (ht : "integer" ∈ f.type ∧ "string" ∉ f.type ∧ "boolean" ∉ f.type) :
    ((boundEq f.minimum MSSQL_BIGINT_MIN && boundEq f.maximum MSSQL_BIGINT_MAX) = true →
        hd_to_sql_type f = .BIGINT) ∧
    ((boundEq f.minimum MSSQL_INT_MIN && boundEq f.maximum MSSQL_INT_MAX) = true →
        hd_to_sql_type f = .INTEGER) ∧
    ((boundEq f.minimum MSSQL_SMALLINT_MIN && boundEq f.maximum MSSQL_SMALLINT_MAX) = true →
        hd_to_sql_type f = .SMALLINT) ∧
    ((boundEq f.minimum MSSQL_TINYINT_MIN && boundEq f.maximum MSSQL_TINYINT_MAX) = true →
        hd_to_sql_type f = .SMALLINT) ∧
    (∀ v : ℤ, f.maximum = some { val := (v : ℚ), render := toString v } →
        intFingerprint f = false →
        hd_to_sql_type f = .NUMERIC (pyCount (toString v) '9') 0) := by
  obtain ⟨hi, hs, hb⟩ := ht
  refine ⟨?_, ?_, ?_, ?_, ?_⟩
  · intro h
    simp [hd_to_sql_type, hs, hb, hi, h]
  · intro h
    rw [Bool.and_eq_true] at h
    have h1 : boundEq f.minimum MSSQL_BIGINT_MIN = false :=
      boundEq_of_ne _ _ _ h.1 (by norm_num [MSSQL_BIGINT_MIN, MSSQL_INT_MIN])
    simp [hd_to_sql_type, hs, hb, hi, h.1, h.2, h1]
  · intro h
    rw [Bool.and_eq_true] at h
    have h1 : boundEq f.minimum MSSQL_BIGINT_MIN = false :=
      boundEq_of_ne _ _ _ h.1 (by norm_num [MSSQL_BIGINT_MIN, MSSQL_SMALLINT_MIN])
    have h2 : boundEq f.minimum MSSQL_INT_MIN = false :=
      boundEq_of_ne _ _ _ h.1 (by norm_num [MSSQL_INT_MIN, MSSQL_SMALLINT_MIN])
    simp [hd_to_sql_type, hs, hb, hi, h.1, h.2, h1, h2]
  · intro h
    rw [Bool.and_eq_true] at h
    have h1 : boundEq f.minimum MSSQL_BIGINT_MIN = false :=
      boundEq_of_ne _ _ _ h.1 (by norm_num [MSSQL_BIGINT_MIN, MSSQL_TINYINT_MIN])
    have h2 : boundEq f.minimum MSSQL_INT_MIN = false :=
      boundEq_of_ne _ _ _ h.1 (by norm_num [MSSQL_INT_MIN, MSSQL_TINYINT_MIN])
    have h3 : boundEq f.minimum MSSQL_SMALLINT_MIN = false :=
      boundEq_of_ne _ _ _ h.1 (by norm_num [MSSQL_SMALLINT_MIN, MSSQL_TINYINT_MIN])
    simp [hd_to_sql_type, hs, hb, hi, h.1, h.2, h1, h2, h3]
  · intro v hv hfp
    rw [intFingerprint, Bool.or_eq_false_iff, Bool.or_eq_false_iff,
      Bool.or_eq_false_iff] at hfp
    obtain ⟨⟨⟨hf1, hf2⟩, hf3⟩, hf4⟩ := hfp
    have nf : ∀ {x : Bool}, x = false → ¬(x = true) := by
      intro x h h'
      rw [h] at h'
      cases h'
    unfold hd_to_sql_type
    rw [if_neg hs, if_neg hb, if_pos hi, if_neg (nf hf1), if_neg (nf hf2),
      if_neg (nf hf3), if_neg (nf hf4), hv]
    rfl

/-- A field carrying the 32-bit signed fingerprint. -/
def int32Field : SchemaField :=
  { type := ["integer"],
    minimum := some { val := -2147483648, render := "-2147483648" },
    maximum := some { val := 2147483647, render := "2147483647" } }

/-- An integer field matching no fingerprint, bounded by 999999. -/
def plainIntField : SchemaField :=
  { type := ["integer"],
    maximum := some { val := 999999, render := "999999" } }

/-- Witness for C3 at the 32-bit fingerprint and at a plain bounded
integer field (`maximum = 999999` gives NUMERIC(6, 0)). -/
theorem claim_C3_witness :
    hd_to_sql_type int32Field = .INTEGER ∧
    hd_to_sql_type plainIntField = .NUMERIC 6 0 := by
  constructor
  · exact (claim_C3_integer_mapping int32Field (by decide)).2.1 (by
      norm_num [int32Field, boundEq, MSSQL_INT_MIN, MSSQL_INT_MAX])
  · exact (claim_C3_integer_mapping plainIntField (by decide)).2.2.2.2 999999 rfl (by
      norm_num [plainIntField, intFingerprint, boundEq, MSSQL_BIGINT_MIN, MSSQL_INT_MIN,
        MSSQL_SMALLINT_MIN, MSSQL_TINYINT_MIN])

theorem bool_ne_true {x : Bool} (h : x = false) : ¬(x = true) := by
  rw [h]
  exact Bool.false_ne_true

/-- Once the four `number` fingerprints fail, `hd_to_sql_type` on a
number-typed field runs the numeric `(precision, scale)` recovery on
`str(maximum)`. -/
theorem hd_number_branch (f : SchemaField)
    (hn : "number" ∈ f.type) (hs : "string" ∉ f.type) (hb : "boolean" ∉ f.type)
    (hi : "integer" ∉ f.type) (hfp : numFingerprint f = false) :
    hd_to_sql_type f = numericRecovery (pyStr f.maximum) := by
  rw [numFingerprint, Bool.or_eq_false_iff, Bool.or_eq_false_iff,
    Bool.or_eq_false_iff] at hfp
  obtain ⟨⟨⟨hp1, hp2⟩, hp3⟩, hp4⟩ := hfp
  unfold hd_to_sql_type
  rw [if_neg hs, if_neg hb, if_neg hi, if_pos hn, if_neg (bool_ne_true hp1),
    if_neg (bool_ne_true hp2), if_neg (bool_ne_true hp3), if_neg (bool_ne_true hp4)]

/-- C4 (confirmed): for a number-typed field matching no fingerprint,
when `str(maximum)` carries no `e+`/`E+` exponent marker the type is
NUMERIC with precision the count of `9` characters and scale that
precision minus the position of the `.` (via `rfind`); with a marker,
the precision is the integer read off from the `+` sign on
(`int(str[rfind('+'):])`) and the scale is the number of characters
strictly between the `.` and the exponent marker
(`lower().find('e') − (find('.') + 1)`). -/
theorem claim_C4_number_numeric (f : SchemaField) (mx : PyNum)
    (ht : "number" ∈ f.type ∧ "string" ∉ f.type ∧ "boolean" ∉ f.type ∧ "integer" ∉ f.type)
    (hmax : f.maximum = some mx)
    (hfp : numFingerprint f = false) :
    (pyHasSub "e+" (pyLower mx.render) = false →
        hd_to_sql_type f =
          .NUMERIC (pyCount mx.render '9')
            ((pyCount mx.render '9' : ℤ) - pyRfind mx.render '.')) ∧
    (∀ p : ℤ, pyHasSub "e+" (pyLower mx.render) = true →
        pyInt? (mx.render.data.drop (pyRfind mx.render '+').toNat) = some p →
        hd_to_sql_type f =
          .NUMERIC p (pyFind (pyLower mx.render) 'e' - (pyFind mx.render '.' + 1))) := by
  obtain ⟨hn, hs, hb, hi⟩ := ht
  have hbranch : hd_to_sql_type f = numericRecovery mx.render := by
    rw [hd_number_branch f hn hs hb hi hfp, hmax]
    rfl
  constructor
  · intro hsub
    rw [hbranch]
    unfold numericRecovery
    rw [if_pos (bool_ne_true hsub)]
  · intro p hsub hp
    rw [hbranch]
    unfold numericRecovery
    rw [if_neg (not_not_intro hsub)]
    simp only [hp]

/-- A number field matching no fingerprint, bounded by 99999.99. -/
def plainNumField : SchemaField :=
  { type := ["number"],
    maximum := some { val := 9999999 / 100, render := "99999.99" } }

/-- A number field matching no fingerprint whose bound renders in
scientific notation. -/
def sciNumField : SchemaField :=
  { type := ["number"],
    maximum := some { val := 15000000000000000, render := "1.5e+16" } }

/-- Witness for C4: `99999.99` gives NUMERIC(7, 2) and `1.5e+16`
gives NUMERIC(16, 1). -/
theorem claim_C4_witness :
    hd_to_sql_type plainNumField = .NUMERIC 7 2 ∧
    hd_to_sql_type sciNumField = .NUMERIC 16 1 := by
  constructor
  · have h := (claim_C4_number_numeric plainNumField
        { val := 9999999 / 100, render := "99999.99" }
        (by decide) rfl (by decide)).1 (by decide)
    rw [h]
    decide
  · have h := (claim_C4_number_numeric sciNumField
        { val := 15000000000000000, render := "1.5e+16" }
        (by decide) rfl (by decide)).2 16 (by decide) (by decide)
    rw [h]
    decide

/-! ## `sinks.py` — `PostgresSink.preprocess_record`

A record is an insertion-ordered dictionary, modelled as an ordered
association list.  The field values the conformer inspects are `None`,
text, bytes (what `b64decode` produces), or any other passthrough
value (numbers, booleans). -/

inductive Value where
  | vnull
  | vstr (s : String)
  | vbytes (bs : List ℕ)
  | vint (n : ℤ)
  | vbool (b : Bool)
deriving DecidableEq

/-- The NUL code point `"\x00"`. -/
def nulChar : Char := Char.ofNat 0

/-- `value.replace("\x00", "")`. -/
def stripNul (s : String) : String :=
  ⟨s.data.filter (fun c => c ≠ nulChar)⟩

/-- The 6-bit value of a standard base64 alphabet character. -/
def b64val (c : Char) : Option ℕ :=
  if 'A' ≤ c ∧ c ≤ 'Z' then some (c.toNat - 65)
  else if 'a' ≤ c ∧ c ≤ 'z' then some (c.toNat - 97 + 26)
  else if '0' ≤ c ∧ c ≤ '9' then some (c.toNat - 48 + 52)
  else if c = '+' then some 62
  else if c = '/' then some 63
  else none

/-- Decode base64 in groups of four characters; `'='` padding closes
the stream; a leftover group raises `binascii.Error` (`none`). -/
def b64chunks : List Char → Option (List ℕ)
  | [] => some []
  | a :: b :: c :: d :: rest =>
      match b64val a, b64val b with
      | some va, some vb =>
          if c = '=' then some [va * 4 + vb / 16]
          else
            match b64val c with
            | some vc =>
                if d = '=' then some [va * 4 + vb / 16, vb % 16 * 16 + vc / 4]
                else
                  match b64val d with
                  | some vd =>
                      (b64chunks rest).map
                        (fun t => (va * 4 + vb / 16) :: (vb % 16 * 16 + vc / 4) ::
                          (vc % 4 * 64 + vd) :: t)
                  | none => none
            | none => none
      | _, _ => none
  | _ => none

/-- `base64.b64decode` with `validate=False`: characters outside the
alphabet (other than padding) are discarded before decoding. -/
def b64decodeChars (cs : List Char) : Option (List ℕ) :=
  b64chunks (cs.filter (fun c => (b64val c).isSome || c = '='))

/-- `b64decode(value)`: a `str` argument is first ASCII-encoded
(non-ASCII raises), `bytes` pass through, any other type raises a
`TypeError`. -/
def b64decodeValue : Value → Option (List ℕ)
  | .vstr s =>
      if s.data.all (fun c => c.toNat < 128) then b64decodeChars s.data else none
  | .vbytes bs => b64decodeChars (bs.map Char.ofNat)
  | _ => none

/-- `properties.get(key)`. -/
def propLookup (props : List (String × SchemaField)) (k : String) :
    Option SchemaField :=
  match props.find? (fun p => p.1 == k) with
  | some p => some p.2
  | none => none

/-- The NUL-stripping statement of the loop body: text containing the
NUL code point is replaced by its stripped form and the per-entry flag
set. -/
def stripStep (v : Value) : Value × Bool :=
  match v with
  | .vstr s => if nulChar ∈ s.data then (.vstr (stripNul s), true) else (v, false)
  | _ => (v, false)

/-- One iteration of the `for key, value in record.items()` loop:
non-null values whose key is missing from the schema properties hit
`None.get(...)` (an `AttributeError`, modelled `none`); text containing
NUL is stripped (setting the per-record flag); a field whose schema
declares `contentEncoding == "base64"` is then base64-decoded. -/
def conformEntry (props : List (String × SchemaField)) (key : String)
    (value : Value) : Option (Value × Bool) :=
  if value = .vnull then some (value, false)
  else
    match propLookup props key with
    | none => none
    | some ps =>
        let sv : Value × Bool := stripStep value
        if ps.contentEncoding = some "base64" then
          match b64decodeValue sv.1 with
          | some bs => some (.vbytes bs, sv.2)
          | none => none
        else some sv

/-- `PostgresSink.preprocess_record`: the record with every entry
conformed, together with the `null_characters_removed` flag.  A raised
exception anywhere in the loop is `none`. -/
def preprocess_record (props : List (String × SchemaField)) :
    List (String × Value) → Option (List (String × Value) × Bool)
  | [] => some ([], false)
  | (k, v) :: rest =>
      match conformEntry props k v with
      | none => none
      | some (v1, strippedHere) =>
          match preprocess_record props rest with
          | none => none
          | some (rest1, strippedRest) =>
              some ((k, v1) :: rest1, strippedHere || strippedRest)

/-- `preprocess_record` plus the final
`if null_characters_removed: self.logger.info(...)`: the second
component counts how many times the removal notice is logged for this
record. -/
def conform (props : List (String × SchemaField)) (record : List (String × Value)) :
    Option (List (String × Value) × ℕ) :=
  (preprocess_record props record).map (fun p => (p.1, if p.2 then 1 else 0))

/-- `isinstance(value, str) and "\x00" in value` for a field value. -/
def hasNulStr : Value → Bool
  | .vstr s => s.data.contains nulChar
  | _ => false

theorem stripNul_no_nul (s : String) : nulChar ∉ (stripNul s).data := by
  intro h
  rcases List.mem_filter.1 h with ⟨-, hdec⟩
  simp at hdec

/-- What one successful loop iteration guarantees: the produced value
is NUL-free if textual, the per-entry flag records exactly whether the
incoming value was text containing NUL, and an entry that needed no
stripping and no decoding passes through unchanged. -/
theorem stripStep_nul (s : String) (h : nulChar ∈ s.data) :
    stripStep (.vstr s) = (.vstr (stripNul s), true) := by
  simp [stripStep, h]

theorem stripStep_clean (v : Value) (h : hasNulStr v = false) :
    stripStep v = (v, false) := by
  cases v <;> simp_all [stripStep, hasNulStr, List.elem_iff]

/-- What one successful loop iteration guarantees: the produced value
is NUL-free if textual, the per-entry flag records exactly whether the
incoming value was text containing NUL, and an entry that needed no
stripping and no decoding passes through unchanged. -/
theorem conformEntry_spec (props : List (String × SchemaField)) (k : String)
    (v v1 : Value) (s1 : Bool)
    (he : conformEntry props k v = some (v1, s1)) :
    (∀ s, v1 = Value.vstr s → nulChar ∉ s.data) ∧
    s1 = hasNulStr v ∧
    ((hasNulStr v = false ∧ (v = Value.vnull ∨
        ∀ ps, propLookup props k = some ps → ps.contentEncoding ≠ some "base64")) →
      v1 = v) := by
  by_cases hv : v = Value.vnull
  · subst hv
    simp only [conformEntry, if_pos rfl, Option.some.injEq, Prod.mk.injEq] at he
    obtain ⟨rfl, rfl⟩ := he
    exact ⟨fun s hs => Value.noConfusion hs, rfl, fun _ => rfl⟩
  · unfold conformEntry at he
    rw [if_neg hv] at he
    cases hpl : propLookup props k with
    | none =>
        rw [hpl] at he
        simp at he
    | some ps =>
        simp only [hpl] at he
        by_cases h64 : ps.contentEncoding = some "base64"
        · rw [if_pos h64] at he
          have hnot : ¬(v = Value.vnull ∨
              ∀ ps1, some ps = some ps1 →
                ps1.contentEncoding ≠ some "base64") := by
            rintro (h | h)
            · exact hv h
            · exact h ps rfl h64
          by_cases hnl : hasNulStr v = false
          · rw [stripStep_clean v hnl] at he
            cases hdec : b64decodeValue v with
            | none => rw [hdec] at he; cases he
            | some bs =>
                rw [hdec] at he
                simp only [Option.some.injEq, Prod.mk.injEq] at he
                obtain ⟨rfl, rfl⟩ := he
                refine ⟨fun s hs => Value.noConfusion hs, hnl.symm, ?_⟩
                exact fun h => absurd h.2 hnot
          · rw [Bool.not_eq_false] at hnl
            obtain ⟨s, hs⟩ : ∃ s, v = Value.vstr s ∧ nulChar ∈ s.data := by
              cases v <;> simp_all [hasNulStr, List.elem_iff]
            obtain ⟨hvs, hmem⟩ := hs
            subst hvs
            rw [stripStep_nul s hmem] at he
            cases hdec : b64decodeValue (Value.vstr (stripNul s)) with
            | none => rw [hdec] at he; cases he
            | some bs =>
                rw [hdec] at he
                simp only [Option.some.injEq, Prod.mk.injEq] at he
                obtain ⟨rfl, rfl⟩ := he
                refine ⟨fun s2 hs2 => Value.noConfusion hs2, ?_, ?_⟩
                · simp [hasNulStr, List.elem_iff, hmem]
                · exact fun h => absurd h.2 hnot
        · rw [if_neg h64] at he
          by_cases hnl : hasNulStr v = false
          · rw [stripStep_clean v hnl] at he
            simp only [Option.some.injEq, Prod.mk.injEq] at he
            obtain ⟨rfl, rfl⟩ := he
            refine ⟨?_, hnl.symm, fun _ => rfl⟩
            intro s hs
            subst hs
            simp [hasNulStr, List.elem_iff] at hnl
            exact hnl
          · rw [Bool.not_eq_false] at hnl
            obtain ⟨s, hs⟩ : ∃ s, v = Value.vstr s ∧ nulChar ∈ s.data := by
              cases v <;> simp_all [hasNulStr, List.elem_iff]
            obtain ⟨hvs, hmem⟩ := hs
            subst hvs
            rw [stripStep_nul s hmem] at he
            simp only [Option.some.injEq, Prod.mk.injEq] at he
            obtain ⟨rfl, rfl⟩ := he
            refine ⟨?_, ?_, ?_⟩
            · intro s2 hs2
              cases hs2
              exact stripNul_no_nul s
            · simp [hasNulStr, List.elem_iff, hmem]
            · rintro ⟨hfl, -⟩
              simp [hasNulStr, List.elem_iff, hmem] at hfl

/-- A value produced by a successful non-base64 iteration is a fixed
point of the iteration: it is NUL-free, so the strip is the identity
and no flag is raised. -/
theorem conformEntry_no64_idem (props : List (String × SchemaField)) (k : String)
    (v v1 : Value) (s1 : Bool)
    (hnb : ∀ ps, propLookup props k = some ps → ps.contentEncoding ≠ some "base64")
    (he : conformEntry props k v = some (v1, s1)) :
    conformEntry props k v1 = some (v1, false) := by
  have hclean : hasNulStr v1 = false := by
    have h1 := (conformEntry_spec props k v v1 s1 he).1
    cases v1 with
    | vstr s => simpa [hasNulStr, List.elem_iff] using h1 s rfl
    | vnull => rfl
    | vbytes bs => rfl
    | vint n => rfl
    | vbool b => rfl
  by_cases hv1 : v1 = Value.vnull
  · subst hv1
    simp [conformEntry]
  · have hex : ∃ ps, propLookup props k = some ps := by
      by_cases hv : v = Value.vnull
      · exfalso
        apply hv1
        subst hv
        have hva : conformEntry props k Value.vnull = some (Value.vnull, false) := rfl
        rw [hva, Option.some.injEq, Prod.mk.injEq] at he
        exact he.1.symm
      · unfold conformEntry at he
        rw [if_neg hv] at he
        cases hpl : propLookup props k with
        | none => rw [hpl] at he; simp at he
        | some ps => exact ⟨ps, rfl⟩
    obtain ⟨ps, hpl⟩ := hex
    unfold conformEntry
    rw [if_neg hv1]
    simp only [hpl]
    rw [if_neg (hnb ps hpl), stripStep_clean v1 hclean]

/-- A second pass of the loop over an already-conformed record whose
schema declares no base64 field returns the record unchanged with the
flag down. -/
theorem preprocess_no64_idem (props : List (String × SchemaField)) :
    ∀ (r r1 : List (String × Value)) (flag : Bool),
    (∀ kv ∈ r, ∀ ps, propLookup props kv.1 = some ps →
        ps.contentEncoding ≠ some "base64") →
    preprocess_record props r = some (r1, flag) →
    preprocess_record props r1 = some (r1, false) := by
  intro r
  induction r with
  | nil =>
      intro r1 flag hnb h
      simp only [preprocess_record, Option.some.injEq, Prod.mk.injEq] at h
      obtain ⟨rfl, rfl⟩ := h
      rfl
  | cons kv rest ih =>
      intro r1 flag hnb h
      obtain ⟨k, v⟩ := kv
      unfold preprocess_record at h
      cases he : conformEntry props k v with
      | none => rw [he] at h; cases h
      | some pr =>
          obtain ⟨v1, s1⟩ := pr
          simp only [he] at h
          cases hr : preprocess_record props rest with
          | none => rw [hr] at h; cases h
          | some pr2 =>
              obtain ⟨rest1, s2⟩ := pr2
              simp only [hr, Option.some.injEq, Prod.mk.injEq] at h
              obtain ⟨rfl, rfl⟩ := h
              have hent : conformEntry props k v1 = some (v1, false) :=
                conformEntry_no64_idem props k v v1 s1
                  (fun ps hl => hnb (k, v) (by simp) ps hl) he
              have hrest : preprocess_record props rest1 = some (rest1, false) :=
                ih rest1 s2 (fun kv2 hm ps hl => hnb kv2 (by simp [hm]) ps hl) hr
              simp [preprocess_record, hent, hrest]

/-- C5 (corrected): on a record none of whose keys carries a base64
`contentEncoding`, a second `conform` pass reproduces the first pass's
output exactly (NUL stripping is idempotent) and raises no flag.  For
base64-declared fields the unrestricted claim is false: the second
pass feeds the decoded bytes to `b64decode` again. -/
theorem claim_C5_conform_idempotent (props : List (String × SchemaField))
    (r r1 : List (String × Value)) (flag : Bool)
    (hnb : ∀ kv ∈ r, ∀ ps, propLookup props kv.1 = some ps →
        ps.contentEncoding ≠ some "base64")
    (h : preprocess_record props r = some (r1, flag)) :
    preprocess_record props r1 = some (r1, false) ∧
    (conform props r1).map Prod.fst = (conform props r).map Prod.fst := by
  have h1 := preprocess_no64_idem props r r1 flag hnb h
  refine ⟨h1, ?_⟩
  simp [conform, h, h1]

/-- The schema and record of the base64 counterexample:
`{"k": "YWJjZA=="}` against a base64-declared string field. -/
def b64props : List (String × SchemaField) :=
  [("k", { type := ["string"], contentEncoding := some "base64" })]

def b64record : List (String × Value) :=
  [("k", Value.vstr "YWJjZA==")]

/-- C5, refuted as stated: conforming `{"k": "YWJjZA=="}` under a
base64 field yields `b"abcd"`; conforming the result decodes again to
`b"\x69\xb7\x1d"`, so `conform (conform r)` differs from `conform r`. -/
theorem claim_C5_counterexample :
    preprocess_record b64props b64record
      = some ([("k", Value.vbytes [97, 98, 99, 100])], false) ∧
    preprocess_record b64props [("k", Value.vbytes [97, 98, 99, 100])]
      = some ([("k", Value.vbytes [105, 183, 29])], false) ∧
    (preprocess_record b64props b64record).bind
        (fun p => preprocess_record b64props p.1)
      ≠ preprocess_record b64props b64record := by
  refine ⟨by decide, by decide, by decide⟩

/-- A schema with one plain string field. -/
def nulProps : List (String × SchemaField) :=
  [("k", { type := ["string"] })]

/-- A record whose value contains an embedded NUL. -/
def nulRecord : List (String × Value) :=
  [("k", Value.vstr ⟨['a', Char.ofNat 0, 'b']⟩)]

/-- Witness for C5's amended theorem: the second pass over the stripped
record `{"k": "ab"}` is the identity. -/
theorem claim_C5_witness :
    preprocess_record nulProps [("k", Value.vstr "ab")]
      = some ([("k", Value.vstr "ab")], false) ∧
    (conform nulProps [("k", Value.vstr "ab")]).map Prod.fst
      = (conform nulProps nulRecord).map Prod.fst :=
  claim_C5_conform_idempotent nulProps nulRecord [("k", Value.vstr "ab")] true
    (by decide) (by decide)

/-- What a successful `preprocess_record` guarantees entry by entry. -/
theorem preprocess_spec (props : List (String × SchemaField)) :
    ∀ (r r1 : List (String × Value)) (flag : Bool),
    preprocess_record props r = some (r1, flag) →
    (∀ kv ∈ r1, ∀ s, kv.2 = Value.vstr s → nulChar ∉ s.data) ∧
    flag = r.any (fun kv => hasNulStr kv.2) ∧
    r1.map Prod.fst = r.map Prod.fst ∧
    List.Forall₂ (fun kv kv1 : String × Value =>
      (hasNulStr kv.2 = false ∧ (kv.2 = Value.vnull ∨
          ∀ ps, propLookup props kv.1 = some ps →
            ps.contentEncoding ≠ some "base64")) →
        kv1 = kv) r r1 := by
  intro r
  induction r with
  | nil =>
      intro r1 flag h
      simp only [preprocess_record, Option.some.injEq, Prod.mk.injEq] at h
      obtain ⟨rfl, rfl⟩ := h
      exact ⟨by simp, rfl, rfl, List.Forall₂.nil⟩
  | cons kv rest ih =>
      intro r1 flag h
      obtain ⟨k, v⟩ := kv
      unfold preprocess_record at h
      cases he : conformEntry props k v with
      | none => rw [he] at h; cases h
      | some pr =>
          obtain ⟨v1, s1⟩ := pr
          simp only [he] at h
          cases hr : preprocess_record props rest with
          | none => rw [hr] at h; cases h
          | some pr2 =>
              obtain ⟨rest1, s2⟩ := pr2
              simp only [hr, Option.some.injEq, Prod.mk.injEq] at h
              obtain ⟨rfl, rfl⟩ := h
              obtain ⟨hq1, hq2, hq3, hq4⟩ := ih rest1 s2 hr
              obtain ⟨hw1, hw2, hw3⟩ := conformEntry_spec props k v v1 s1 he
              refine ⟨?_, ?_, ?_, ?_⟩
              · intro kv2 hm s hs
                rcases List.mem_cons.1 hm with h' | h'
                · rw [h'] at hs
                  exact hw1 s hs
                · exact hq1 kv2 h' s hs
              · simp [hw2, hq2]
              · simp [hq3]
              · exact List.Forall₂.cons
                  (fun hu => by rw [hw3 ⟨hu.1, hu.2⟩]) hq4

/-- C6 (confirmed): after `conform`, every textual field value is
NUL-free; the removal notice is logged exactly once when at least one
field value was text containing NUL and never otherwise, however many
fields were affected; keys and their order are preserved; and every
entry needing neither stripping nor base64 decoding passes through
unchanged. -/
theorem claim_C6_nul_strip_log (props : List (String × SchemaField))
    (r r1 : List (String × Value)) (flag : Bool)
    (h : preprocess_record props r = some (r1, flag)) :
    (∀ kv ∈ r1, ∀ s, kv.2 = Value.vstr s → nulChar ∉ s.data) ∧
    conform props r =
      some (r1, if r.any (fun kv => hasNulStr kv.2) then 1 else 0) ∧
    r1.map Prod.fst = r.map Prod.fst ∧
    List.Forall₂ (fun kv kv1 : String × Value =>
      (hasNulStr kv.2 = false ∧ (kv.2 = Value.vnull ∨
          ∀ ps, propLookup props kv.1 = some ps →
            ps.contentEncoding ≠ some "base64")) →
        kv1 = kv) r r1 := by
  obtain ⟨h1, h2, h3, h4⟩ := preprocess_spec props r r1 flag h
  subst h2
  exact ⟨h1, by simp [conform, h], h3, h4⟩

/-- A schema with two plain string fields. -/
def nulProps2 : List (String × SchemaField) :=
  [("a", { type := ["string"] }), ("b", { type := ["string"] })]

/-- A record with NUL characters in both fields. -/
def nulRecord2 : List (String × Value) :=
  [("a", Value.vstr ⟨['x', Char.ofNat 0]⟩), ("b", Value.vstr ⟨[Char.ofNat 0, 'y']⟩)]

/-- Witness for C6: two NUL-carrying fields are both stripped and the
notice is logged exactly once. -/
theorem claim_C6_witness :
    conform nulProps2 nulRecord2
      = some ([("a", Value.vstr "x"), ("b", Value.vstr "y")], 1) := by
  have h := (claim_C6_nul_strip_log nulProps2 nulRecord2
    [("a", Value.vstr "x"), ("b", Value.vstr "y")] true (by decide)).2.1
  exact h.trans (by decide)

/-! ## `sinks.py` — `PostgresSink.bulk_insert_records`

The database execution collaborator (`conn.execute` inside
`with self.connector._connect() as conn, conn.begin()`) either reports
a `CursorResult` rowcount or raises a `sqlalchemy.exc.SQLAlchemyError`
whose `__dict__["orig"]` is the driver-level error.  The flush passes
the statement and the conformed records to it exactly once, so the
collaborator's one outcome is the model's input. -/

structure SQLAlchemyError where
  orig : String
deriving DecidableEq

structure BulkResult where
  rowcount : ℕ
  logs : List String
  executions : ℕ
deriving DecidableEq

/-- `bulk_insert_records`, from `rowcount: int = 0` onward:
`executions` counts the calls handed to the execution collaborator,
`logs` what `self.logger.info` received.  On success the engine-reported
rowcount is returned; on `SQLAlchemyError` the message
`str(e.__dict__["orig"])` is logged and the initial 0 is returned —
nothing is re-raised and nothing is retried. -/
def bulk_insert_records (execResult : Except SQLAlchemyError ℕ) : BulkResult :=
  match execResult with
  | .ok n => { rowcount := n, logs := [], executions := 1 }
  | .error e => { rowcount := 0, logs := [e.orig], executions := 1 }

/-- C7 (confirmed): a driver-level failure during the flush is caught,
the driver's own error payload is logged, the flush reports exactly 0
rows affected, the statement was handed to the collaborator exactly
once (no retry), and no exception escapes (the function totally returns
a `BulkResult`). -/
theorem claim_C7_flush_failure (e : SQLAlchemyError) :
    bulk_insert_records (.error e) =
      { rowcount := 0, logs := [e.orig], executions := 1 } ∧
    ∀ n : ℕ, bulk_insert_records (.ok n) =
      { rowcount := n, logs := [], executions := 1 } :=
  ⟨rfl, fun _ => rfl⟩

end TargetPostgres
